import Mathlib

/-!
Shallow embedding of the unixfs option-resolution layer of go-ipfs
(core/coreiface/options/unixfs.go): the settings records, the option
constructors (modelled as an enumerated datatype of field mutations, one
constructor per Go option function), and the resolvers UnixfsAddOptions,
UnixfsWriteOptions, UnixfsMkdirOptions, UnixfsLsOptions.

Go integers are modelled as Int (for int fields, including the CidVersion
tri-state with sentinel -1) and Nat (for uint64 multihash/codec codes).
A Go resolver returning (settings *T, prefix cid.Prefix, err error) is
modelled as a triple (Option T) × CidPrefix × (Option ResolveErr), where
every Go error site literally returns (nil, cid.Prefix.zero, err).
The Events field of UnixfsAddSettings (a Go channel) is outside the
embedding; no resolver rule reads it.
-/

namespace GoIpfs

/-- mh.SHA2_256 multihash code (0x12). -/
def SHA2_256 : Nat := 0x12

/-- mh.SHA2_512 multihash code (0x13), used as a concrete non-default hash. -/
def SHA2_512 : Nat := 0x13

/-- cid.DagProtobuf codec code (0x70). -/
def DagProtobuf : Nat := 0x70

/-- DAG layout selector (options.Layout). -/
inductive Layout where
  | balanced
  | trickle
deriving DecidableEq, Repr

/-- UnixfsAddSettings, minus the channel-typed Events field. -/
structure UnixfsAddSettings where
  CidVersion : Int
  MhType : Nat
  Inline : Bool
  InlineLimit : Int
  RawLeaves : Bool
  RawLeavesSet : Bool
  Chunker : String
  Layout : Layout
  Pin : Bool
  OnlyHash : Bool
  FsCache : Bool
  NoCopy : Bool
  Silent : Bool
  Progress : Bool
  ToFiles : String
deriving DecidableEq, Repr

/-- UnixfsLsSettings. -/
structure UnixfsLsSettings where
  ResolveChildren : Bool
  UseCumulativeSize : Bool
deriving DecidableEq, Repr

/-- UnixfsMkdirSettings. -/
structure UnixfsMkdirSettings where
  Parents : Bool
  CidVersion : Int
  MhType : Nat
deriving DecidableEq, Repr

/-- UnixfsWriteSettings. Note: no RawLeavesSet flag exists in this record. -/
structure UnixfsWriteSettings where
  Offset : Int
  Create : Bool
  Parents : Bool
  Truncate : Bool
  Count : Int
  RawLeaves : Bool
  CidVersion : Int
  MhType : Nat
deriving DecidableEq, Repr

/-- cid.Prefix: Version and Codec are Go uint64, MhType uint64, MhLength int. -/
structure CidPrefix where
  Version : Nat
  Codec : Nat
  MhType : Nat
  MhLength : Int
deriving DecidableEq, Repr

/-- The Go zero value cid.Prefix\x7b\x7d returned alongside every resolver error. -/
def zeroCidPrefix : CidPrefix :=
  { Version := 0, Codec := 0, MhType := 0, MhLength := 0 }

/-- The resolver error taxonomy. conflictingOption carries the Go message
"nocopy option requires raw-leaves to be enabled as well";
unsupportedCombination the message "CIDv0 only supports sha2-256";
unknownCidVersion v the message "unknown CID version: v". -/
inductive ResolveErr where
  | conflictingOption
  | unsupportedCombination
  | unknownCidVersion (v : Int)
deriving DecidableEq, Repr

/-- Modelled from the spec: dag.PrefixForCidVersion lives in the external
merkledag collaborator package, not under this repository's sources. Per the
spec (Prefix Derivation, section 4.1), derivation succeeds exactly for CID
versions 0 and 1, returning a dag-pb prefix whose hash-length field is the
compute-from-digest sentinel (-1), and fails with the unknown-CID-version
error for any other value. -/
def PrefixForCidVersion (version : Int) : Except ResolveErr CidPrefix :=
  if version = 0 then
    .ok { Version := 0, Codec := DagProtobuf, MhType := SHA2_256, MhLength := -1 }
  else if version = 1 then
    .ok { Version := 1, Codec := DagProtobuf, MhType := SHA2_256, MhLength := -1 }
  else
    .error (.unknownCidVersion version)

/-- The enumerated Add option constructors (methods of unixfsOpts returning
UnixfsAddOption), one constructor per Go option function; Events is omitted
(channel-typed). -/
inductive UnixfsAddOpt where
  | cidVersion (version : Int)
  | hash (mhtype : Nat)
  | rawLeaves (enable : Bool)
  | inline (enable : Bool)
  | inlineLimit (limit : Int)
  | chunker (chunker : String)
  | layout (layout : Layout)
  | pin (pin : Bool)
  | hashOnly (hashOnly : Bool)
  | silent (silent : Bool)
  | progress (enable : Bool)
  | toFiles (path : String)
  | fsCache (enable : Bool)
  | nocopy (enable : Bool)
deriving DecidableEq, Repr

/-- Applying one Add option to a settings record: each Go option closure is a
pure field mutation (RawLeaves also raises the RawLeavesSet flag). -/
def applyAddOpt (s : UnixfsAddSettings) (o : UnixfsAddOpt) : UnixfsAddSettings :=
  match o with
  | .cidVersion v => { s with CidVersion := v }
  | .hash m => { s with MhType := m }
  | .rawLeaves b => { s with RawLeaves := b, RawLeavesSet := true }
  | .inline b => { s with Inline := b }
  | .inlineLimit n => { s with InlineLimit := n }
  | .chunker c => { s with Chunker := c }
  | .layout l => { s with Layout := l }
  | .pin b => { s with Pin := b }
  | .hashOnly b => { s with OnlyHash := b }
  | .silent b => { s with Silent := b }
  | .progress b => { s with Progress := b }
  | .toFiles p => { s with ToFiles := p }
  | .fsCache b => { s with FsCache := b }
  | .nocopy b => { s with NoCopy := b }

/-- The default Add settings record built at the top of UnixfsAddOptions. -/
def unixfsAddDefaults : UnixfsAddSettings :=
  { CidVersion := -1
    MhType := SHA2_256
    Inline := false
    InlineLimit := 32
    RawLeaves := false
    RawLeavesSet := false
    Chunker := "size-262144"
    Layout := .balanced
    Pin := false
    OnlyHash := false
    FsCache := false
    NoCopy := false
    Silent := false
    Progress := false
    ToFiles := "" }

/-- The option-application loop of UnixfsAddOptions (none of the enumerated
option constructors can return a non-nil error). -/
def applyAddOpts (opts : List UnixfsAddOpt) : UnixfsAddSettings :=
  opts.foldl applyAddOpt unixfsAddDefaults

/-- The nocopy-implies-rawblocks check of UnixfsAddOptions. -/
def addStepNoCopy (s : UnixfsAddSettings) : Except ResolveErr UnixfsAddSettings :=
  if s.NoCopy = true ∧ s.RawLeaves = false then
    if s.RawLeavesSet = true then
      .error .conflictingOption
    else
      .ok { s with RawLeaves := true }
  else
    .ok s

/-- The hash-implies-CIDv1 / default-CIDv0 switch shared verbatim by the Add,
Write and Mkdir resolvers, phrased on the (CidVersion, MhType) pair. Returns
the resolved CidVersion. -/
def stepCidVersion (cidVersion : Int) (mhType : Nat) : Except ResolveErr Int :=
  if mhType ≠ SHA2_256 then
    if cidVersion = 0 then
      .error .unsupportedCombination
    else if cidVersion = 1 ∨ cidVersion = -1 then
      .ok 1
    else
      .error (.unknownCidVersion cidVersion)
  else
    if cidVersion < 0 then
      .ok 0
    else
      .ok cidVersion

/-- The cidV1-implies-raw-blocks default of UnixfsAddOptions (guarded by the
RawLeavesSet explicit flag). -/
def addStepRawDefault (s : UnixfsAddSettings) : UnixfsAddSettings :=
  if 0 < s.CidVersion ∧ s.RawLeavesSet = false then
    { s with RawLeaves := true }
  else
    s

/-- UnixfsAddOptions: applies the options over the defaults, runs the nocopy
check, the CID-version switch, the raw-leaves default, derives the prefix and
stamps MhType / MhLength on it. Every error site returns the Go triple
(nil, cid.Prefix zero value, err). -/
def UnixfsAddOptions (opts : List UnixfsAddOpt) :
    Option UnixfsAddSettings × CidPrefix × Option ResolveErr :=
  let options := applyAddOpts opts
  match addStepNoCopy options with
  | .error e => (none, zeroCidPrefix, some e)
  | .ok options1 =>
    match stepCidVersion options1.CidVersion options1.MhType with
    | .error e => (none, zeroCidPrefix, some e)
    | .ok v =>
      let options2 := addStepRawDefault { options1 with CidVersion := v }
      match PrefixForCidVersion options2.CidVersion with
      | .error e => (none, zeroCidPrefix, some e)
      | .ok pfx =>
        (some options2, { pfx with MhType := options2.MhType, MhLength := -1 }, none)

/-- The enumerated Write option constructors. -/
inductive UnixfsWriteOpt where
  | writeOffset (offset : Int)
  | create (create : Bool)
  | writeParents (parents : Bool)
  | truncate (truncate : Bool)
  | writeRawLeaves (rawLeaves : Bool)
  | writeCount (count : Int)
  | writeCidVersion (cidVersion : Int)
  | writeHash (mhtype : Nat)
deriving DecidableEq, Repr

/-- Applying one Write option: a pure single-field mutation. -/
def applyWriteOpt (s : UnixfsWriteSettings) (o : UnixfsWriteOpt) : UnixfsWriteSettings :=
  match o with
  | .writeOffset v => { s with Offset := v }
  | .create b => { s with Create := b }
  | .writeParents b => { s with Parents := b }
  | .truncate b => { s with Truncate := b }
  | .writeRawLeaves b => { s with RawLeaves := b }
  | .writeCount v => { s with Count := v }
  | .writeCidVersion v => { s with CidVersion := v }
  | .writeHash m => { s with MhType := m }

/-- The default Write settings record built at the top of UnixfsWriteOptions. -/
def unixfsWriteDefaults : UnixfsWriteSettings :=
  { Offset := 0
    Create := false
    Parents := false
    Truncate := false
    Count := 0
    RawLeaves := false
    CidVersion := -1
    MhType := SHA2_256 }

/-- The option-application loop of UnixfsWriteOptions. -/
def applyWriteOpts (opts : List UnixfsWriteOpt) : UnixfsWriteSettings :=
  opts.foldl applyWriteOpt unixfsWriteDefaults

/-- The cidV1-implies-raw-blocks rule of UnixfsWriteOptions: the Write record
has no RawLeavesSet flag, so the guard reads the RawLeaves value itself. -/
def writeStepRawDefault (s : UnixfsWriteSettings) : UnixfsWriteSettings :=
  if 0 < s.CidVersion ∧ s.RawLeaves = false then
    { s with RawLeaves := true }
  else
    s

/-- UnixfsWriteOptions: option loop, CID-version switch, value-guarded
raw-leaves default, prefix derivation and stamping. -/
def UnixfsWriteOptions (opts : List UnixfsWriteOpt) :
    Option UnixfsWriteSettings × CidPrefix × Option ResolveErr :=
  let options := applyWriteOpts opts
  match stepCidVersion options.CidVersion options.MhType with
  | .error e => (none, zeroCidPrefix, some e)
  | .ok v =>
    let options1 := writeStepRawDefault { options with CidVersion := v }
    match PrefixForCidVersion options1.CidVersion with
    | .error e => (none, zeroCidPrefix, some e)
    | .ok pfx =>
      (some options1, { pfx with MhType := options1.MhType, MhLength := -1 }, none)

/-- The enumerated Mkdir option constructors. -/
inductive UnixfsMkdirOpt where
  | parents (parents : Bool)
  | mkdirCidVersion (cidVer : Int)
  | mkdirHash (mhtype : Nat)
deriving DecidableEq, Repr

/-- Applying one Mkdir option: a pure single-field mutation. -/
def applyMkdirOpt (s : UnixfsMkdirSettings) (o : UnixfsMkdirOpt) : UnixfsMkdirSettings :=
  match o with
  | .parents b => { s with Parents := b }
  | .mkdirCidVersion v => { s with CidVersion := v }
  | .mkdirHash m => { s with MhType := m }

/-- The default Mkdir settings record built at the top of UnixfsMkdirOptions. -/
def unixfsMkdirDefaults : UnixfsMkdirSettings :=
  { Parents := false
    CidVersion := -1
    MhType := SHA2_256 }

/-- The option-application loop of UnixfsMkdirOptions. -/
def applyMkdirOpts (opts : List UnixfsMkdirOpt) : UnixfsMkdirSettings :=
  opts.foldl applyMkdirOpt unixfsMkdirDefaults

/-- UnixfsMkdirOptions: option loop, CID-version switch (no raw-leaves
concern), prefix derivation and stamping. -/
def UnixfsMkdirOptions (opts : List UnixfsMkdirOpt) :
    Option UnixfsMkdirSettings × CidPrefix × Option ResolveErr :=
  let options := applyMkdirOpts opts
  match stepCidVersion options.CidVersion options.MhType with
  | .error e => (none, zeroCidPrefix, some e)
  | .ok v =>
    let options1 : UnixfsMkdirSettings := { options with CidVersion := v }
    match PrefixForCidVersion options1.CidVersion with
    | .error e => (none, zeroCidPrefix, some e)
    | .ok pfx =>
      (some options1, { pfx with MhType := options1.MhType, MhLength := -1 }, none)

/-- The enumerated Ls option constructors. -/
inductive UnixfsLsOpt where
  | resolveChildren (resolve : Bool)
  | useCumulativeSize (use : Bool)
deriving DecidableEq, Repr

/-- Applying one Ls option: a pure single-field mutation. -/
def applyLsOpt (s : UnixfsLsSettings) (o : UnixfsLsOpt) : UnixfsLsSettings :=
  match o with
  | .resolveChildren b => { s with ResolveChildren := b }
  | .useCumulativeSize b => { s with UseCumulativeSize := b }

/-- The default Ls settings record built at the top of UnixfsLsOptions:
ResolveChildren is set to true, UseCumulativeSize keeps the Go zero value. -/
def unixfsLsDefaults : UnixfsLsSettings :=
  { ResolveChildren := true
    UseCumulativeSize := false }

/-- UnixfsLsOptions: applies the options over the defaults; none of the
enumerated Ls option constructors can return a non-nil error, so the
resolver always succeeds with the folded record. -/
def UnixfsLsOptions (opts : List UnixfsLsOpt) : UnixfsLsSettings :=
  opts.foldl applyLsOpt unixfsLsDefaults

/-! Helper lemmas about the resolution steps. -/

theorem PrefixForCidVersion_ok_version {v : Int} {p : CidPrefix}
    (h : PrefixForCidVersion v = .ok p) : v = 0 ∨ v = 1 := by
  unfold PrefixForCidVersion at h
  split at h
  · exact Or.inl (by assumption)
  · split at h
    · exact Or.inr (by assumption)
    · exact absurd h (by simp)

theorem addStepNoCopy_ok_fields {s t : UnixfsAddSettings}
    (h : addStepNoCopy s = .ok t) :
    t.CidVersion = s.CidVersion ∧ t.MhType = s.MhType ∧
      t.NoCopy = s.NoCopy ∧ t.RawLeavesSet = s.RawLeavesSet := by
  unfold addStepNoCopy at h
  split at h
  · split at h
    · exact absurd h (by simp)
    · cases h
      exact ⟨rfl, rfl, rfl, rfl⟩
  · cases h
    exact ⟨rfl, rfl, rfl, rfl⟩

theorem addStepNoCopy_ok_nocopy_raw {s t : UnixfsAddSettings}
    (h : addStepNoCopy s = .ok t) (hn : s.NoCopy = true) : t.RawLeaves = true := by
  unfold addStepNoCopy at h
  split at h
  · split at h
    · exact absurd h (by simp)
    · cases h
      rfl
  · cases h
    rename_i hcond
    rcases Bool.eq_false_or_eq_true s.RawLeaves with hr | hr
    · exact hr
    · exact absurd ⟨hn, hr⟩ hcond

theorem addStepNoCopy_of_noCopy_false {s : UnixfsAddSettings}
    (hn : s.NoCopy = false) : addStepNoCopy s = .ok s := by
  unfold addStepNoCopy
  split
  · rename_i hcond
    rw [hn] at hcond
    exact absurd hcond.1 (by simp)
  · rfl

theorem addStepNoCopy_ok_of_no_conflict {s : UnixfsAddSettings}
    (hnc : ¬(s.NoCopy = true ∧ s.RawLeaves = false ∧ s.RawLeavesSet = true)) :
    addStepNoCopy s =
      .ok (if s.NoCopy = true ∧ s.RawLeaves = false then { s with RawLeaves := true } else s) := by
  unfold addStepNoCopy
  split
  · rename_i hcond
    split
    · rename_i hset
      exact absurd ⟨hcond.1, hcond.2, hset⟩ hnc
    · simp [hcond]
  · rename_i hcond
    simp [hcond]

theorem addStepRawDefault_CidVersion (s : UnixfsAddSettings) :
    (addStepRawDefault s).CidVersion = s.CidVersion := by
  unfold addStepRawDefault
  split <;> rfl

theorem addStepRawDefault_MhType (s : UnixfsAddSettings) :
    (addStepRawDefault s).MhType = s.MhType := by
  unfold addStepRawDefault
  split <;> rfl

theorem addStepRawDefault_RawLeaves_of_true {s : UnixfsAddSettings}
    (h : s.RawLeaves = true) : (addStepRawDefault s).RawLeaves = true := by
  unfold addStepRawDefault
  split <;> simp [h]

theorem addStepRawDefault_of_set {s : UnixfsAddSettings}
    (h : s.RawLeavesSet = true) : addStepRawDefault s = s := by
  unfold addStepRawDefault
  split
  · rename_i hcond
    rw [h] at hcond
    exact absurd hcond.2 (by simp)
  · rfl

theorem addStepRawDefault_of_unset_pos {s : UnixfsAddSettings}
    (h : s.RawLeavesSet = false) (hv : 0 < s.CidVersion) :
    (addStepRawDefault s).RawLeaves = true := by
  unfold addStepRawDefault
  split
  · rfl
  · rename_i hcond
    exact absurd ⟨hv, h⟩ hcond

theorem stepCidVersion_standard (cv : Int) :
    stepCidVersion cv SHA2_256 = .ok (if cv < 0 then 0 else cv) := by
  unfold stepCidVersion
  split
  · rename_i hmh
    exact absurd rfl hmh
  · split <;> simp_all

theorem stepCidVersion_nonstandard {mh : Nat} (hmh : mh ≠ SHA2_256) (cv : Int) :
    stepCidVersion cv mh =
      if cv = 0 then .error .unsupportedCombination
      else if cv = 1 ∨ cv = -1 then .ok 1
      else .error (.unknownCidVersion cv) := by
  unfold stepCidVersion
  split
  · rfl
  · rename_i h
    exact absurd hmh h

/-- Shape of a successful UnixfsAddOptions run: the settings returned are the
folded options taken through the nocopy check, the CID-version switch and the
raw-leaves default, and the prefix is the derived one stamped with the
resolved hash type and the length sentinel. -/
theorem UnixfsAddOptions_ok {a : List UnixfsAddOpt} {s : UnixfsAddSettings} {p : CidPrefix}
    (h : UnixfsAddOptions a = (some s, p, none)) :
    ∃ t v pfx,
      addStepNoCopy (applyAddOpts a) = .ok t ∧
      stepCidVersion t.CidVersion t.MhType = .ok v ∧
      s = addStepRawDefault { t with CidVersion := v } ∧
      PrefixForCidVersion s.CidVersion = .ok pfx ∧
      p = { pfx with MhType := s.MhType, MhLength := -1 } := by
  simp only [UnixfsAddOptions] at h
  split at h
  · simp at h
  · rename_i t hnc
    split at h
    · simp at h
    · rename_i v hcv
      split at h
      · simp at h
      · rename_i pfx hp
        simp only [Prod.mk.injEq, Option.some.injEq] at h
        obtain ⟨hs, hpp, -⟩ := h
        subst hs
        exact ⟨t, v, pfx, hnc, hcv, rfl, hp, hpp.symm⟩

/-- Shape of a successful UnixfsWriteOptions run. -/
theorem UnixfsWriteOptions_ok {w : List UnixfsWriteOpt} {s : UnixfsWriteSettings} {p : CidPrefix}
    (h : UnixfsWriteOptions w = (some s, p, none)) :
    ∃ v pfx,
      stepCidVersion (applyWriteOpts w).CidVersion (applyWriteOpts w).MhType = .ok v ∧
      s = writeStepRawDefault { applyWriteOpts w with CidVersion := v } ∧
      PrefixForCidVersion s.CidVersion = .ok pfx ∧
      p = { pfx with MhType := s.MhType, MhLength := -1 } := by
  simp only [UnixfsWriteOptions] at h
  split at h
  · simp at h
  · rename_i v hcv
    split at h
    · simp at h
    · rename_i pfx hp
      simp only [Prod.mk.injEq, Option.some.injEq] at h
      obtain ⟨hs, hpp, -⟩ := h
      subst hs
      exact ⟨v, pfx, hcv, rfl, hp, hpp.symm⟩

/-- Shape of a successful UnixfsMkdirOptions run. -/
theorem UnixfsMkdirOptions_ok {m : List UnixfsMkdirOpt} {s : UnixfsMkdirSettings} {p : CidPrefix}
    (h : UnixfsMkdirOptions m = (some s, p, none)) :
    ∃ v pfx,
      stepCidVersion (applyMkdirOpts m).CidVersion (applyMkdirOpts m).MhType = .ok v ∧
      s = { applyMkdirOpts m with CidVersion := v } ∧
      PrefixForCidVersion s.CidVersion = .ok pfx ∧
      p = { pfx with MhType := s.MhType, MhLength := -1 } := by
  simp only [UnixfsMkdirOptions] at h
  split at h
  · simp at h
  · rename_i v hcv
    split at h
    · simp at h
    · rename_i pfx hp
      simp only [Prod.mk.injEq, Option.some.injEq] at h
      obtain ⟨hs, hpp, -⟩ := h
      subst hs
      exact ⟨v, pfx, hcv, rfl, hp, hpp.symm⟩

theorem writeStepRawDefault_CidVersion (s : UnixfsWriteSettings) :
    (writeStepRawDefault s).CidVersion = s.CidVersion := by
  unfold writeStepRawDefault
  split <;> rfl

theorem writeStepRawDefault_MhType (s : UnixfsWriteSettings) :
    (writeStepRawDefault s).MhType = s.MhType := by
  unfold writeStepRawDefault
  split <;> rfl

theorem writeStepRawDefault_RawLeaves_of_pos {s : UnixfsWriteSettings}
    (hv : 0 < s.CidVersion) : (writeStepRawDefault s).RawLeaves = true := by
  unfold writeStepRawDefault
  split
  · rfl
  · rename_i hcond
    rcases Bool.eq_false_or_eq_true s.RawLeaves with hr | hr
    · exact hr
    · exact absurd ⟨hv, hr⟩ hcond

/-- Every UnixfsAddOptions result is either an error triple with nil settings
and the zero prefix, or a success triple with a nil error. -/
theorem UnixfsAddOptions_shape (a : List UnixfsAddOpt) :
    (∃ e, UnixfsAddOptions a = (none, zeroCidPrefix, some e)) ∨
    (∃ s p, UnixfsAddOptions a = (some s, p, none)) := by
  simp only [UnixfsAddOptions]
  split
  · exact Or.inl ⟨_, rfl⟩
  · split
    · exact Or.inl ⟨_, rfl⟩
    · split
      · exact Or.inl ⟨_, rfl⟩
      · exact Or.inr ⟨_, _, rfl⟩

/-- Every UnixfsWriteOptions result is either an error triple with nil settings
and the zero prefix, or a success triple with a nil error. -/
theorem UnixfsWriteOptions_shape (w : List UnixfsWriteOpt) :
    (∃ e, UnixfsWriteOptions w = (none, zeroCidPrefix, some e)) ∨
    (∃ s p, UnixfsWriteOptions w = (some s, p, none)) := by
  simp only [UnixfsWriteOptions]
  split
  · exact Or.inl ⟨_, rfl⟩
  · split
    · exact Or.inl ⟨_, rfl⟩
    · exact Or.inr ⟨_, _, rfl⟩

/-- Every UnixfsMkdirOptions result is either an error triple with nil settings
and the zero prefix, or a success triple with a nil error. -/
theorem UnixfsMkdirOptions_shape (m : List UnixfsMkdirOpt) :
    (∃ e, UnixfsMkdirOptions m = (none, zeroCidPrefix, some e)) ∨
    (∃ s p, UnixfsMkdirOptions m = (some s, p, none)) := by
  simp only [UnixfsMkdirOptions]
  split
  · exact Or.inl ⟨_, rfl⟩
  · split
    · exact Or.inl ⟨_, rfl⟩
    · exact Or.inr ⟨_, _, rfl⟩

/-- Builder: a successful CID-version step yields a successful Add run. -/
theorem UnixfsAddOptions_ok_of_steps {a : List UnixfsAddOpt} {t : UnixfsAddSettings} {v : Int}
    (hnc : addStepNoCopy (applyAddOpts a) = .ok t)
    (hstep : stepCidVersion t.CidVersion t.MhType = .ok v) (hv : v = 0 ∨ v = 1) :
    ∃ p, UnixfsAddOptions a =
      (some (addStepRawDefault { t with CidVersion := v }), p, none) := by
  simp only [UnixfsAddOptions, hnc, hstep]
  rw [addStepRawDefault_CidVersion]
  rcases hv with rfl | rfl <;> simp [PrefixForCidVersion]

/-- Builder: a successful CID-version step yields a successful Write run. -/
theorem UnixfsWriteOptions_ok_of_steps {w : List UnixfsWriteOpt} {v : Int}
    (hstep : stepCidVersion (applyWriteOpts w).CidVersion (applyWriteOpts w).MhType = .ok v)
    (hv : v = 0 ∨ v = 1) :
    ∃ p, UnixfsWriteOptions w =
      (some (writeStepRawDefault { applyWriteOpts w with CidVersion := v }), p, none) := by
  simp only [UnixfsWriteOptions, hstep]
  rw [writeStepRawDefault_CidVersion]
  rcases hv with rfl | rfl <;> simp [PrefixForCidVersion]

/-- Builder: a successful CID-version step yields a successful Mkdir run. -/
theorem UnixfsMkdirOptions_ok_of_steps {m : List UnixfsMkdirOpt} {v : Int}
    (hstep : stepCidVersion (applyMkdirOpts m).CidVersion (applyMkdirOpts m).MhType = .ok v)
    (hv : v = 0 ∨ v = 1) :
    ∃ p, UnixfsMkdirOptions m =
      (some { applyMkdirOpts m with CidVersion := v }, p, none) := by
  simp only [UnixfsMkdirOptions, hstep]
  rcases hv with rfl | rfl <;> simp [PrefixForCidVersion]

/-! Concrete resolved records used by witness theorems. -/

/-- The settings UnixfsAddOptions returns on the empty option list. -/
def addEmptyResolved : UnixfsAddSettings := { unixfsAddDefaults with CidVersion := 0 }

/-- The settings UnixfsWriteOptions returns on the empty option list. -/
def writeEmptyResolved : UnixfsWriteSettings := { unixfsWriteDefaults with CidVersion := 0 }

/-- The settings UnixfsMkdirOptions returns on the empty option list. -/
def mkdirEmptyResolved : UnixfsMkdirSettings := { unixfsMkdirDefaults with CidVersion := 0 }

/-- The stamped dag-pb CIDv0 sha2-256 prefix. -/
def pbPrefixV0 : CidPrefix :=
  { Version := 0, Codec := DagProtobuf, MhType := SHA2_256, MhLength := -1 }

/-- The stamped dag-pb CIDv1 sha2-256 prefix. -/
def pbPrefixV1 : CidPrefix :=
  { Version := 1, Codec := DagProtobuf, MhType := SHA2_256, MhLength := -1 }

/-! The claims. -/

/-- C10: UnixfsLsOptions with no options resolves ResolveChildren to true and
UseCumulativeSize to false. -/
theorem ls_defaults_resolve_children :
    UnixfsLsOptions [] = { ResolveChildren := true, UseCumulativeSize := false } := rfl

/-- C9: whenever UnixfsAddOptions, UnixfsWriteOptions or UnixfsMkdirOptions
returns a non-nil error, it returns a nil settings record and the zero CID
prefix; the three detection sites are all inside the (pure) resolver. -/
theorem resolver_error_returns_nil_and_zero
    (a : List UnixfsAddOpt) (w : List UnixfsWriteOpt) (m : List UnixfsMkdirOpt) :
    (∀ e, (UnixfsAddOptions a).2.2 = some e →
      UnixfsAddOptions a = (none, zeroCidPrefix, some e)) ∧
    (∀ e, (UnixfsWriteOptions w).2.2 = some e →
      UnixfsWriteOptions w = (none, zeroCidPrefix, some e)) ∧
    (∀ e, (UnixfsMkdirOptions m).2.2 = some e →
      UnixfsMkdirOptions m = (none, zeroCidPrefix, some e)) := by
  refine ⟨?_, ?_, ?_⟩
  · intro e h
    rcases UnixfsAddOptions_shape a with ⟨e1, he⟩ | ⟨s, p, hs⟩
    · rw [he] at h
      simp only [Option.some.injEq] at h
      rw [he, h]
    · rw [hs] at h
      simp at h
  · intro e h
    rcases UnixfsWriteOptions_shape w with ⟨e1, he⟩ | ⟨s, p, hs⟩
    · rw [he] at h
      simp only [Option.some.injEq] at h
      rw [he, h]
    · rw [hs] at h
      simp at h
  · intro e h
    rcases UnixfsMkdirOptions_shape m with ⟨e1, he⟩ | ⟨s, p, hs⟩
    · rw [he] at h
      simp only [Option.some.injEq] at h
      rw [he, h]
    · rw [hs] at h
      simp at h

/-- Witness for C9: a concrete rejected configuration per resolver. -/
theorem resolver_error_returns_nil_and_zero_witness :
    UnixfsAddOptions [UnixfsAddOpt.nocopy true, UnixfsAddOpt.rawLeaves false] =
      (none, zeroCidPrefix, some ResolveErr.conflictingOption) ∧
    UnixfsWriteOptions [UnixfsWriteOpt.writeCidVersion 5] =
      (none, zeroCidPrefix, some (ResolveErr.unknownCidVersion 5)) ∧
    UnixfsMkdirOptions [UnixfsMkdirOpt.mkdirCidVersion 0, UnixfsMkdirOpt.mkdirHash SHA2_512] =
      (none, zeroCidPrefix, some ResolveErr.unsupportedCombination) :=
  ⟨(resolver_error_returns_nil_and_zero
      [UnixfsAddOpt.nocopy true, UnixfsAddOpt.rawLeaves false] [] []).1
      ResolveErr.conflictingOption (by decide),
   (resolver_error_returns_nil_and_zero [] [UnixfsWriteOpt.writeCidVersion 5] []).2.1
      (ResolveErr.unknownCidVersion 5) (by decide),
   (resolver_error_returns_nil_and_zero [] []
      [UnixfsMkdirOpt.mkdirCidVersion 0, UnixfsMkdirOpt.mkdirHash SHA2_512]).2.2
      ResolveErr.unsupportedCombination (by decide)⟩

/-- C5: on every successful resolution by the Add, Write or Mkdir resolver,
the cidVersion of the returned settings record is exactly 0 or exactly 1
(never the unset sentinel, never any other value). -/
theorem resolved_cidversion_zero_or_one
    (a : List UnixfsAddOpt) (w : List UnixfsWriteOpt) (m : List UnixfsMkdirOpt) :
    (∀ s p, UnixfsAddOptions a = (some s, p, none) →
      s.CidVersion = 0 ∨ s.CidVersion = 1) ∧
    (∀ s p, UnixfsWriteOptions w = (some s, p, none) →
      s.CidVersion = 0 ∨ s.CidVersion = 1) ∧
    (∀ s p, UnixfsMkdirOptions m = (some s, p, none) →
      s.CidVersion = 0 ∨ s.CidVersion = 1) := by
  refine ⟨?_, ?_, ?_⟩ <;> intro s p h
  · obtain ⟨t, v, pfx, -, -, -, hp, -⟩ := UnixfsAddOptions_ok h
    exact PrefixForCidVersion_ok_version hp
  · obtain ⟨v, pfx, -, -, hp, -⟩ := UnixfsWriteOptions_ok h
    exact PrefixForCidVersion_ok_version hp
  · obtain ⟨v, pfx, -, -, hp, -⟩ := UnixfsMkdirOptions_ok h
    exact PrefixForCidVersion_ok_version hp

/-- Witness for C5: the empty option list per resolver. -/
theorem resolved_cidversion_zero_or_one_witness :
    (addEmptyResolved.CidVersion = 0 ∨ addEmptyResolved.CidVersion = 1) ∧
    (writeEmptyResolved.CidVersion = 0 ∨ writeEmptyResolved.CidVersion = 1) ∧
    (mkdirEmptyResolved.CidVersion = 0 ∨ mkdirEmptyResolved.CidVersion = 1) :=
  ⟨(resolved_cidversion_zero_or_one [] [] []).1 addEmptyResolved pbPrefixV0 (by decide),
   (resolved_cidversion_zero_or_one [] [] []).2.1 writeEmptyResolved pbPrefixV0 (by decide),
   (resolved_cidversion_zero_or_one [] [] []).2.2 mkdirEmptyResolved pbPrefixV0 (by decide)⟩

/-- C7: on every successful resolution by the Add, Write or Mkdir resolver,
the returned CID prefix has MhLength equal to the compute-from-digest
sentinel -1 and MhType equal to the resolved settings hash function. -/
theorem resolved_prefix_stamps_sentinel_and_hash
    (a : List UnixfsAddOpt) (w : List UnixfsWriteOpt) (m : List UnixfsMkdirOpt) :
    (∀ s p, UnixfsAddOptions a = (some s, p, none) →
      p.MhLength = -1 ∧ p.MhType = s.MhType) ∧
    (∀ s p, UnixfsWriteOptions w = (some s, p, none) →
      p.MhLength = -1 ∧ p.MhType = s.MhType) ∧
    (∀ s p, UnixfsMkdirOptions m = (some s, p, none) →
      p.MhLength = -1 ∧ p.MhType = s.MhType) := by
  refine ⟨?_, ?_, ?_⟩ <;> intro s p h
  · obtain ⟨t, v, pfx, -, -, -, -, hpp⟩ := UnixfsAddOptions_ok h
    subst hpp
    exact ⟨rfl, rfl⟩
  · obtain ⟨v, pfx, -, -, -, hpp⟩ := UnixfsWriteOptions_ok h
    subst hpp
    exact ⟨rfl, rfl⟩
  · obtain ⟨v, pfx, -, -, -, hpp⟩ := UnixfsMkdirOptions_ok h
    subst hpp
    exact ⟨rfl, rfl⟩

/-- Witness for C7: the empty option list per resolver. -/
theorem resolved_prefix_stamps_sentinel_and_hash_witness :
    (pbPrefixV0.MhLength = -1 ∧ pbPrefixV0.MhType = addEmptyResolved.MhType) ∧
    (pbPrefixV0.MhLength = -1 ∧ pbPrefixV0.MhType = writeEmptyResolved.MhType) ∧
    (pbPrefixV0.MhLength = -1 ∧ pbPrefixV0.MhType = mkdirEmptyResolved.MhType) :=
  ⟨(resolved_prefix_stamps_sentinel_and_hash [] [] []).1 addEmptyResolved pbPrefixV0 (by decide),
   (resolved_prefix_stamps_sentinel_and_hash [] [] []).2.1 writeEmptyResolved pbPrefixV0 (by decide),
   (resolved_prefix_stamps_sentinel_and_hash [] [] []).2.2 mkdirEmptyResolved pbPrefixV0 (by decide)⟩

/-- C6 counterexample: with the standard hash and cidVersion unset, an Add
option sequence can still be rejected by the earlier no-copy conflict check,
so the Add resolver does not always resolve cidVersion to 0 on such input. -/
theorem add_standard_hash_unset_cid_can_fail_nocopy :
    (applyAddOpts [UnixfsAddOpt.nocopy true, UnixfsAddOpt.rawLeaves false]).MhType = SHA2_256 ∧
    (applyAddOpts [UnixfsAddOpt.nocopy true, UnixfsAddOpt.rawLeaves false]).CidVersion = -1 ∧
    UnixfsAddOptions [UnixfsAddOpt.nocopy true, UnixfsAddOpt.rawLeaves false] =
      (none, zeroCidPrefix, some ResolveErr.conflictingOption) := by decide

/-- C6 (amended): with the standard hash and cidVersion left at the unset
sentinel, the Write and Mkdir resolvers succeed with cidVersion 0, and the Add
resolver resolves cidVersion to 0 whenever it succeeds (it may still fail the
no-copy conflict check). -/
theorem standard_hash_unset_cid_resolves_to_zero
    (a : List UnixfsAddOpt) (w : List UnixfsWriteOpt) (m : List UnixfsMkdirOpt)
    (ha1 : (applyAddOpts a).MhType = SHA2_256) (ha2 : (applyAddOpts a).CidVersion = -1)
    (hw1 : (applyWriteOpts w).MhType = SHA2_256) (hw2 : (applyWriteOpts w).CidVersion = -1)
    (hm1 : (applyMkdirOpts m).MhType = SHA2_256) (hm2 : (applyMkdirOpts m).CidVersion = -1) :
    (∀ s p, UnixfsAddOptions a = (some s, p, none) → s.CidVersion = 0) ∧
    (∃ s p, UnixfsWriteOptions w = (some s, p, none) ∧ s.CidVersion = 0) ∧
    (∃ s p, UnixfsMkdirOptions m = (some s, p, none) ∧ s.CidVersion = 0) := by
  refine ⟨?_, ?_, ?_⟩
  · intro s p h
    obtain ⟨t, v, pfx, hnc, hcv, hs, -, -⟩ := UnixfsAddOptions_ok h
    obtain ⟨htc, htm, -, -⟩ := addStepNoCopy_ok_fields hnc
    rw [htc, htm, ha2, ha1, stepCidVersion_standard] at hcv
    norm_num at hcv
    subst hs
    rw [addStepRawDefault_CidVersion]
    show v = 0
    omega
  · have hstep : stepCidVersion (applyWriteOpts w).CidVersion (applyWriteOpts w).MhType =
        .ok 0 := by
      rw [hw2, hw1, stepCidVersion_standard]
      norm_num
    obtain ⟨p, hp⟩ := UnixfsWriteOptions_ok_of_steps hstep (Or.inl rfl)
    refine ⟨_, p, hp, ?_⟩
    rw [writeStepRawDefault_CidVersion]
  · have hstep : stepCidVersion (applyMkdirOpts m).CidVersion (applyMkdirOpts m).MhType =
        .ok 0 := by
      rw [hm2, hm1, stepCidVersion_standard]
      norm_num
    obtain ⟨p, hp⟩ := UnixfsMkdirOptions_ok_of_steps hstep (Or.inl rfl)
    exact ⟨_, p, hp, rfl⟩

/-- Witness for C6: the empty Add option list resolves to cidVersion 0. -/
theorem standard_hash_unset_cid_resolves_to_zero_witness :
    addEmptyResolved.CidVersion = 0 :=
  (standard_hash_unset_cid_resolves_to_zero [] [] [] (by decide) (by decide) (by decide)
    (by decide) (by decide) (by decide)).1 addEmptyResolved pbPrefixV0 (by decide)

/-- The C1 counterexample input: the no-copy conflict fires before the
non-standard-hash CID-version check. -/
def addC1Cex : List UnixfsAddOpt :=
  [UnixfsAddOpt.nocopy true, UnixfsAddOpt.rawLeaves false,
   UnixfsAddOpt.hash SHA2_512, UnixfsAddOpt.cidVersion 0]

/-- C1 counterexample: a sequence with final hash not sha2-256 and cidVersion
explicitly 0 whose resolution fails with ConflictingOption, not with the
claimed UnsupportedCombination. -/
theorem add_nonstandard_hash_cid_zero_conflict_preempts :
    (applyAddOpts addC1Cex).MhType ≠ SHA2_256 ∧
    (applyAddOpts addC1Cex).CidVersion = 0 ∧
    UnixfsAddOptions addC1Cex = (none, zeroCidPrefix, some ResolveErr.conflictingOption) ∧
    (UnixfsAddOptions addC1Cex).2.2 ≠ some ResolveErr.unsupportedCombination := by decide

/-- C1 (amended): for every Add option sequence whose final hash function is
not sha2-256 and which passes the no-copy conflict check: cidVersion 0 fails
with UnsupportedCombination, unset or 1 succeeds with cidVersion resolved to
1, and any other value fails with UnknownCidVersion. -/
theorem add_nonstandard_hash_cidversion_cases (a : List UnixfsAddOpt)
    (hmh : (applyAddOpts a).MhType ≠ SHA2_256)
    (hnc : ¬((applyAddOpts a).NoCopy = true ∧ (applyAddOpts a).RawLeaves = false ∧
      (applyAddOpts a).RawLeavesSet = true)) :
    ((applyAddOpts a).CidVersion = 0 →
      UnixfsAddOptions a = (none, zeroCidPrefix, some ResolveErr.unsupportedCombination)) ∧
    ((applyAddOpts a).CidVersion = 1 ∨ (applyAddOpts a).CidVersion = -1 →
      ∃ s p, UnixfsAddOptions a = (some s, p, none) ∧ s.CidVersion = 1) ∧
    ((applyAddOpts a).CidVersion ≠ 0 → (applyAddOpts a).CidVersion ≠ 1 →
      (applyAddOpts a).CidVersion ≠ -1 →
      UnixfsAddOptions a =
        (none, zeroCidPrefix, some (ResolveErr.unknownCidVersion (applyAddOpts a).CidVersion))) := by
  have hok := addStepNoCopy_ok_of_no_conflict hnc
  obtain ⟨htc, htm, -, -⟩ := addStepNoCopy_ok_fields hok
  refine ⟨?_, ?_, ?_⟩
  · intro h0
    have hcv : stepCidVersion
        (if (applyAddOpts a).NoCopy = true ∧ (applyAddOpts a).RawLeaves = false then
          { applyAddOpts a with RawLeaves := true } else applyAddOpts a).CidVersion
        (if (applyAddOpts a).NoCopy = true ∧ (applyAddOpts a).RawLeaves = false then
          { applyAddOpts a with RawLeaves := true } else applyAddOpts a).MhType =
        .error .unsupportedCombination := by
      rw [htc, htm, stepCidVersion_nonstandard hmh]
      simp [h0]
    simp only [UnixfsAddOptions, hok, hcv]
  · intro h1
    have hcv : stepCidVersion
        (if (applyAddOpts a).NoCopy = true ∧ (applyAddOpts a).RawLeaves = false then
          { applyAddOpts a with RawLeaves := true } else applyAddOpts a).CidVersion
        (if (applyAddOpts a).NoCopy = true ∧ (applyAddOpts a).RawLeaves = false then
          { applyAddOpts a with RawLeaves := true } else applyAddOpts a).MhType =
        .ok 1 := by
      rw [htc, htm, stepCidVersion_nonstandard hmh]
      rcases h1 with h1 | h1 <;> simp [h1]
    obtain ⟨p, hp⟩ := UnixfsAddOptions_ok_of_steps hok hcv (Or.inr rfl)
    refine ⟨_, p, hp, ?_⟩
    rw [addStepRawDefault_CidVersion]
  · intro hn0 hn1 hnm1
    have hcv : stepCidVersion
        (if (applyAddOpts a).NoCopy = true ∧ (applyAddOpts a).RawLeaves = false then
          { applyAddOpts a with RawLeaves := true } else applyAddOpts a).CidVersion
        (if (applyAddOpts a).NoCopy = true ∧ (applyAddOpts a).RawLeaves = false then
          { applyAddOpts a with RawLeaves := true } else applyAddOpts a).MhType =
        .error (.unknownCidVersion (applyAddOpts a).CidVersion) := by
      rw [htc, htm, stepCidVersion_nonstandard hmh]
      simp [hn0, hn1, hnm1]
    simp only [UnixfsAddOptions, hok, hcv]

/-- Witness for C1 (amended): non-standard hash with explicit cidVersion 0. -/
theorem add_nonstandard_hash_cidversion_cases_witness :
    UnixfsAddOptions [UnixfsAddOpt.hash SHA2_512, UnixfsAddOpt.cidVersion 0] =
      (none, zeroCidPrefix, some ResolveErr.unsupportedCombination) :=
  (add_nonstandard_hash_cidversion_cases
    [UnixfsAddOpt.hash SHA2_512, UnixfsAddOpt.cidVersion 0]
    (by decide) (by decide)).1 (by decide)

/-- The C2 counterexample input: nocopy with unset raw-leaves and a CIDv0
request on a non-standard hash. -/
def addC2Cex : List UnixfsAddOpt :=
  [UnixfsAddOpt.nocopy true, UnixfsAddOpt.hash SHA2_512, UnixfsAddOpt.cidVersion 0]

/-- C2 counterexample: noCopy true and rawLeaves false after option
application with RawLeavesSet false, yet resolution does not succeed: the
later CID-version check rejects it. -/
theorem add_nocopy_forced_rawleaves_can_still_fail :
    (applyAddOpts addC2Cex).NoCopy = true ∧
    (applyAddOpts addC2Cex).RawLeaves = false ∧
    (applyAddOpts addC2Cex).RawLeavesSet = false ∧
    UnixfsAddOptions addC2Cex = (none, zeroCidPrefix, some ResolveErr.unsupportedCombination) := by
  decide

/-- C2 (amended): if noCopy is true and rawLeaves is false after option
application, an explicitly-set raw-leaves flag makes resolution fail with
ConflictingOption; otherwise rawLeaves is forced to true before the remaining
checks, so every successful resolution with noCopy true has rawLeaves true. -/
theorem add_nocopy_requires_rawleaves (a : List UnixfsAddOpt)
    (hn : (applyAddOpts a).NoCopy = true) :
    ((applyAddOpts a).RawLeaves = false → (applyAddOpts a).RawLeavesSet = true →
      UnixfsAddOptions a = (none, zeroCidPrefix, some ResolveErr.conflictingOption)) ∧
    (∀ s p, UnixfsAddOptions a = (some s, p, none) → s.RawLeaves = true) := by
  constructor
  · intro hr hset
    have herr : addStepNoCopy (applyAddOpts a) = .error .conflictingOption := by
      simp [addStepNoCopy, hn, hr, hset]
    simp only [UnixfsAddOptions, herr]
  · intro s p h
    obtain ⟨t, v, pfx, hnc, hcv, hs, -, -⟩ := UnixfsAddOptions_ok h
    have ht : t.RawLeaves = true := addStepNoCopy_ok_nocopy_raw hnc hn
    subst hs
    exact addStepRawDefault_RawLeaves_of_true ht

/-- The settings UnixfsAddOptions returns on the single option Nocopy(true). -/
def addNocopyResolved : UnixfsAddSettings :=
  { unixfsAddDefaults with NoCopy := true, RawLeaves := true, CidVersion := 0 }

/-- Witness for C2 (amended): the single option Nocopy(true) succeeds with
rawLeaves forced true. -/
theorem add_nocopy_requires_rawleaves_witness :
    addNocopyResolved.RawLeaves = true :=
  (add_nocopy_requires_rawleaves [UnixfsAddOpt.nocopy true] (by decide)).2
    addNocopyResolved pbPrefixV0 (by decide)

/-- C3: on every successful Add resolution with cidVersion above 0, an
unset raw-leaves flag resolves rawLeaves to true, while an explicitly set
rawLeaves false (with noCopy false) stays false: explicit wins. -/
theorem add_cidv1_rawleaves_default_and_explicit (a : List UnixfsAddOpt) :
    ∀ s p, UnixfsAddOptions a = (some s, p, none) → 0 < s.CidVersion →
      (((applyAddOpts a).RawLeavesSet = false → s.RawLeaves = true) ∧
       ((applyAddOpts a).RawLeaves = false → (applyAddOpts a).RawLeavesSet = true →
         (applyAddOpts a).NoCopy = false → s.RawLeaves = false)) := by
  intro s p h hv
  obtain ⟨t, v, pfx, hnc, hcv, hs, -, -⟩ := UnixfsAddOptions_ok h
  obtain ⟨-, -, -, htset⟩ := addStepNoCopy_ok_fields hnc
  constructor
  · intro hset
    subst hs
    rw [addStepRawDefault_CidVersion] at hv
    apply addStepRawDefault_of_unset_pos
    · show t.RawLeavesSet = false
      rw [htset, hset]
    · exact hv
  · intro hr hset hn
    have hts : addStepNoCopy (applyAddOpts a) = .ok (applyAddOpts a) :=
      addStepNoCopy_of_noCopy_false hn
    rw [hnc] at hts
    injection hts with hteq
    subst hteq
    subst hs
    have hfix : addStepRawDefault { applyAddOpts a with CidVersion := v } =
        { applyAddOpts a with CidVersion := v } :=
      addStepRawDefault_of_set hset
    rw [hfix]
    exact hr

/-- The settings UnixfsAddOptions returns on the single option CidVersion(1). -/
def addV1Resolved : UnixfsAddSettings :=
  { unixfsAddDefaults with CidVersion := 1, RawLeaves := true }

/-- Witness for C3: the single option CidVersion(1). -/
theorem add_cidv1_rawleaves_default_and_explicit_witness :
    (((applyAddOpts [UnixfsAddOpt.cidVersion 1]).RawLeavesSet = false →
        addV1Resolved.RawLeaves = true) ∧
     ((applyAddOpts [UnixfsAddOpt.cidVersion 1]).RawLeaves = false →
        (applyAddOpts [UnixfsAddOpt.cidVersion 1]).RawLeavesSet = true →
        (applyAddOpts [UnixfsAddOpt.cidVersion 1]).NoCopy = false →
        addV1Resolved.RawLeaves = false)) :=
  add_cidv1_rawleaves_default_and_explicit [UnixfsAddOpt.cidVersion 1]
    addV1Resolved pbPrefixV1 (by decide) (by decide)

/-- The settings UnixfsWriteOptions returns on WriteRawLeaves(false) followed
by WriteCidVersion(1): the explicit false is overridden. -/
def writeV1Resolved : UnixfsWriteSettings :=
  { unixfsWriteDefaults with CidVersion := 1, RawLeaves := true }

/-- C4 counterexample: WriteRawLeaves(false) with WriteCidVersion(1) resolves
successfully with rawLeaves true, not false: the Write record has no
explicit-set flag, so the explicit false does not win. -/
theorem write_explicit_rawleaves_false_overridden :
    UnixfsWriteOptions [UnixfsWriteOpt.writeRawLeaves false, UnixfsWriteOpt.writeCidVersion 1] =
      (some writeV1Resolved, pbPrefixV1, none) ∧
    writeV1Resolved.RawLeaves = true := by decide

/-- C4 (amended): the Write resolver applies the Add rules 2 to 6, but with a
value-guarded raw-leaves rule: every successful Write resolution with
cidVersion above 0 has rawLeaves true, even when the caller passed
WriteRawLeaves(false). -/
theorem write_cidv1_forces_rawleaves (w : List UnixfsWriteOpt) :
    ∀ s p, UnixfsWriteOptions w = (some s, p, none) → 0 < s.CidVersion →
      s.RawLeaves = true := by
  intro s p h hv
  obtain ⟨v, pfx, hcv, hs, -, -⟩ := UnixfsWriteOptions_ok h
  subst hs
  rw [writeStepRawDefault_CidVersion] at hv
  exact writeStepRawDefault_RawLeaves_of_pos hv

/-- Witness for C4 (amended): the single option WriteCidVersion(1). -/
theorem write_cidv1_forces_rawleaves_witness :
    writeV1Resolved.RawLeaves = true :=
  write_cidv1_forces_rawleaves [UnixfsWriteOpt.writeCidVersion 1]
    writeV1Resolved pbPrefixV1 (by decide) (by decide)

/-! Per-field selectors for the Add option constructors: the value an option
writes into a given field, or none when the option leaves the field alone. -/

/-- Value written to CidVersion by an Add option. -/
def selCidVersion : UnixfsAddOpt → Option Int
  | .cidVersion v => some v
  | _ => none

/-- Value written to MhType by an Add option. -/
def selMhType : UnixfsAddOpt → Option Nat
  | .hash m => some m
  | _ => none

/-- Value written to Inline by an Add option. -/
def selInline : UnixfsAddOpt → Option Bool
  | .inline b => some b
  | _ => none

/-- Value written to InlineLimit by an Add option. -/
def selInlineLimit : UnixfsAddOpt → Option Int
  | .inlineLimit n => some n
  | _ => none

/-- Value written to RawLeaves by an Add option. -/
def selRawLeaves : UnixfsAddOpt → Option Bool
  | .rawLeaves b => some b
  | _ => none

/-- Value written to RawLeavesSet by an Add option: the RawLeaves constructor
writes true into this second field, whatever its argument. -/
def selRawLeavesSet : UnixfsAddOpt → Option Bool
  | .rawLeaves _ => some true
  | _ => none

/-- Value written to Chunker by an Add option. -/
def selChunker : UnixfsAddOpt → Option String
  | .chunker c => some c
  | _ => none

/-- Value written to Layout by an Add option. -/
def selLayout : UnixfsAddOpt → Option Layout
  | .layout l => some l
  | _ => none

/-- Value written to Pin by an Add option. -/
def selPin : UnixfsAddOpt → Option Bool
  | .pin b => some b
  | _ => none

/-- Value written to OnlyHash by an Add option. -/
def selOnlyHash : UnixfsAddOpt → Option Bool
  | .hashOnly b => some b
  | _ => none

/-- Value written to FsCache by an Add option. -/
def selFsCache : UnixfsAddOpt → Option Bool
  | .fsCache b => some b
  | _ => none

/-- Value written to NoCopy by an Add option. -/
def selNoCopy : UnixfsAddOpt → Option Bool
  | .nocopy b => some b
  | _ => none

/-- Value written to Silent by an Add option. -/
def selSilent : UnixfsAddOpt → Option Bool
  | .silent b => some b
  | _ => none

/-- Value written to Progress by an Add option. -/
def selProgress : UnixfsAddOpt → Option Bool
  | .progress b => some b
  | _ => none

/-- Value written to ToFiles by an Add option. -/
def selToFiles : UnixfsAddOpt → Option String
  | .toFiles s => some s
  | _ => none

/-- The value of one field after a sequence of options: the argument written
by the last option in the sequence that sets the field, or the initial value
when none does. -/
def lastSet {α : Type} (sel : UnixfsAddOpt → Option α) (d : α)
    (opts : List UnixfsAddOpt) : α :=
  opts.foldl (fun acc o => (sel o).getD acc) d

/-- Folding the Add options over any start record resolves each field
independently to its last written value. -/
theorem foldl_applyAddOpt_eq (opts : List UnixfsAddOpt) : ∀ s : UnixfsAddSettings,
    opts.foldl applyAddOpt s =
      { CidVersion := lastSet selCidVersion s.CidVersion opts
        MhType := lastSet selMhType s.MhType opts
        Inline := lastSet selInline s.Inline opts
        InlineLimit := lastSet selInlineLimit s.InlineLimit opts
        RawLeaves := lastSet selRawLeaves s.RawLeaves opts
        RawLeavesSet := lastSet selRawLeavesSet s.RawLeavesSet opts
        Chunker := lastSet selChunker s.Chunker opts
        Layout := lastSet selLayout s.Layout opts
        Pin := lastSet selPin s.Pin opts
        OnlyHash := lastSet selOnlyHash s.OnlyHash opts
        FsCache := lastSet selFsCache s.FsCache opts
        NoCopy := lastSet selNoCopy s.NoCopy opts
        Silent := lastSet selSilent s.Silent opts
        Progress := lastSet selProgress s.Progress opts
        ToFiles := lastSet selToFiles s.ToFiles opts } := by
  induction opts with
  | nil => intro s; rfl
  | cons o rest ih =>
    intro s
    rw [List.foldl_cons, ih (applyAddOpt s o)]
    cases o <;> rfl

/-- C8 counterexample: the RawLeaves option constructor applied to the default
record mutates two fields of the settings record (RawLeaves and
RawLeavesSet), not exactly one. -/
theorem add_rawleaves_option_mutates_two_fields :
    (applyAddOpt unixfsAddDefaults (UnixfsAddOpt.rawLeaves true)).RawLeaves ≠
      unixfsAddDefaults.RawLeaves ∧
    (applyAddOpt unixfsAddDefaults (UnixfsAddOpt.rawLeaves true)).RawLeavesSet ≠
      unixfsAddDefaults.RawLeavesSet := by decide

/-- C8 (amended): options apply in caller order and each field of the record
the Add resolver sees before its implication rules equals the argument of the
last option in the sequence that sets that field (with the one exception that
the RawLeaves constructor also writes true into the RawLeavesSet flag), all
other fields keeping their defaults. -/
theorem add_options_last_write_wins (opts : List UnixfsAddOpt) :
    applyAddOpts opts =
      { CidVersion := lastSet selCidVersion (-1) opts
        MhType := lastSet selMhType SHA2_256 opts
        Inline := lastSet selInline false opts
        InlineLimit := lastSet selInlineLimit 32 opts
        RawLeaves := lastSet selRawLeaves false opts
        RawLeavesSet := lastSet selRawLeavesSet false opts
        Chunker := lastSet selChunker "size-262144" opts
        Layout := lastSet selLayout Layout.balanced opts
        Pin := lastSet selPin false opts
        OnlyHash := lastSet selOnlyHash false opts
        FsCache := lastSet selFsCache false opts
        NoCopy := lastSet selNoCopy false opts
        Silent := lastSet selSilent false opts
        Progress := lastSet selProgress false opts
        ToFiles := lastSet selToFiles "" opts } :=
  foldl_applyAddOpt_eq opts unixfsAddDefaults

end GoIpfs
